import Mathlib

/-!
# Verification of the escp-layout core

Shallow embedding of the escp-layout Rust crate: the Cell/StyleFlags data
model (`src/cell.rs`), the 160×51 page grid and its builder (`src/page.rs`),
the Region algebra (`src/region.rs`), the widget composition tree
(`src/widget/`), and the ESC/P serializer (`src/escp/`).  Machine integers
(`u16`) are modelled as `Nat`; where the source uses unchecked `u16`
arithmetic whose wrap-around is observable, the embedding computes
`% 65536` explicitly.  Strings are modelled as lists of byte values
(for `Label::add_text`, which counts bytes) or of Unicode scalar values
(for grid writes, which iterate `char`s).  Fallible operations return
`Except`; Rust methods that mutate `&mut self` are modelled by returning
the result together with the updated state.
-/

namespace EscpLayout

/-- `u16` wrap-around modulus. -/
def U16MOD : Nat := 65536

/-! ## StyleFlags and Cell (`src/cell.rs`) -/

/-- `StyleFlags(u8)`: bit 0 = bold, bit 1 = underline. -/
structure StyleFlags where
  val : Nat
deriving DecidableEq

namespace StyleFlags

/-- `StyleFlags::NONE`. -/
def NONE : StyleFlags := ⟨0⟩

/-- `StyleFlags::BOLD` (bit 0). -/
def BOLD : StyleFlags := ⟨1⟩

/-- `StyleFlags::UNDERLINE` (bit 1). -/
def UNDERLINE : StyleFlags := ⟨2⟩

/-- `StyleFlags::bold`: `self.0 & 1 != 0`. -/
def bold (s : StyleFlags) : Bool := s.val.testBit 0

/-- `StyleFlags::underline`: `self.0 & 2 != 0`. -/
def underline (s : StyleFlags) : Bool := s.val.testBit 1

/-- `StyleFlags::with_bold`: `self.0 | 1`. -/
def with_bold (s : StyleFlags) : StyleFlags := ⟨s.val ||| 1⟩

/-- `StyleFlags::with_underline`: `self.0 | 2`. -/
def with_underline (s : StyleFlags) : StyleFlags := ⟨s.val ||| 2⟩

end StyleFlags

/-- One character cell: an ASCII byte value plus style flags. -/
structure Cell where
  character : Nat
  style : StyleFlags
deriving DecidableEq

namespace Cell

/-- `Cell::EMPTY`: a space with no styling. -/
def EMPTY : Cell := ⟨32, StyleFlags.NONE⟩

/-- `Cell::new`: keeps printable ASCII (32..=126), replaces anything else
(control or non-ASCII scalar values) with `?` (63).  The Rust condition
`ch.is_ascii() && ch as u8 >= 32 && ch as u8 <= 126` on a Unicode scalar
value `ch` is equivalent to `32 ≤ ch ∧ ch ≤ 126`. -/
def new (ch : Nat) (style : StyleFlags) : Cell :=
  if 32 ≤ ch ∧ ch ≤ 126 then ⟨ch, style⟩ else ⟨63, style⟩

end Cell

/-! ## Errors (`src/error.rs`, `src/widget/error.rs`) -/

/-- `LayoutError` from `src/error.rs` (Region algebra errors). -/
inductive LayoutError where
  | RegionOutOfBounds (x y width height : Nat)
  | InvalidDimensions (width height : Nat)
  | InvalidSplit (parent_size split_size : Nat)
deriving DecidableEq

/-- `RenderError` from `src/widget/error.rs`. -/
inductive RenderError where
  | ChildExceedsParent (parent_width parent_height child_width child_height : Nat)
      (position : Nat × Nat)
  | OutOfBounds (position : Nat × Nat) (bounds : Nat × Nat × Nat × Nat)
  | OverlappingChildren (child1_bounds child2_bounds : Nat × Nat × Nat × Nat)
  | InsufficientSpace (available required : Nat) (layout_type : String)
  | IntegerOverflow (operation : String)
  | TextExceedsWidth (text_length widget_width : Nat)
deriving DecidableEq

/-! ## Region algebra (`src/region.rs`) -/

/-- `PAGE_WIDTH` (condensed mode, 160 columns). -/
def PAGE_WIDTH : Nat := 160

/-- `PAGE_HEIGHT` (51 rows). -/
def PAGE_HEIGHT : Nat := 51

/-- `Region { x, y, width, height }`, all `u16` in the source. -/
structure Region where
  x : Nat
  y : Nat
  width : Nat
  height : Nat
deriving DecidableEq

namespace Region

/-- The documented Region invariant: non-zero size, inside the 160×51 page. -/
def invariant (r : Region) : Prop :=
  0 < r.width ∧ 0 < r.height ∧ r.x + r.width ≤ PAGE_WIDTH ∧ r.y + r.height ≤ PAGE_HEIGHT

instance (r : Region) : Decidable r.invariant := by
  unfold invariant; infer_instance

/-- `Region::new`: rejects zero dimensions, then rejects regions extending
past the 160×51 page.  The source guards `x + width` with `checked_add`;
on `u16` inputs an overflowing sum exceeds 160 in any case and yields the
same `RegionOutOfBounds` error, so the `Nat` sum is an exact model. -/
def new (x y width height : Nat) : Except LayoutError Region :=
  if width = 0 ∨ height = 0 then
    .error (.InvalidDimensions width height)
  else if x + width > PAGE_WIDTH ∨ y + height > PAGE_HEIGHT then
    .error (.RegionOutOfBounds x y width height)
  else
    .ok ⟨x, y, width, height⟩

/-- `Region::full_page`. -/
def full_page : Region := ⟨0, 0, PAGE_WIDTH, PAGE_HEIGHT⟩

/-- `Region::split_vertical`: top gets `top_height`, bottom gets the rest. -/
def split_vertical (r : Region) (top_height : Nat) :
    Except LayoutError (Region × Region) :=
  if top_height > r.height then
    .error (.InvalidSplit r.height top_height)
  else
    .ok (⟨r.x, r.y, r.width, top_height⟩,
         ⟨r.x, r.y + top_height, r.width, r.height - top_height⟩)

/-- `Region::split_horizontal`: left gets `left_width`, right gets the rest. -/
def split_horizontal (r : Region) (left_width : Nat) :
    Except LayoutError (Region × Region) :=
  if left_width > r.width then
    .error (.InvalidSplit r.width left_width)
  else
    .ok (⟨r.x, r.y, left_width, r.height⟩,
         ⟨r.x + left_width, r.y, r.width - left_width, r.height⟩)

/-- `Region::with_padding`: `saturating_add` on the pad sums is modelled by
`min _ 65535`; `u16` subtraction never underflows here because the guard
ensures the pad is strictly below the dimension. -/
def with_padding (r : Region) (top right bottom left : Nat) :
    Except LayoutError Region :=
  let horizontal_padding := min (left + right) 65535
  let vertical_padding := min (top + bottom) 65535
  if horizontal_padding ≥ r.width ∨ vertical_padding ≥ r.height then
    .error (.InvalidDimensions (r.width - horizontal_padding) (r.height - vertical_padding))
  else
    .ok ⟨r.x + left, r.y + top, r.width - horizontal_padding, r.height - vertical_padding⟩

end Region

/-! ## Page grid and builder (`src/page.rs`)

The 160×51 cell matrix is modelled as a total function `row ↦ col ↦ Cell`;
only indices `y < 51`, `x < 160` are ever read by the renderer. -/

/-- `PageBuilder { cells: Box<[[Cell; 160]; 51]> }`. -/
structure PageBuilder where
  cells : Nat → Nat → Cell

namespace PageBuilder

/-- `PageBuilder::new`: every cell starts as `Cell::EMPTY`. -/
def new : PageBuilder := ⟨fun _ _ => Cell.EMPTY⟩

/-- `PageBuilder::write_at`: in-bounds writes store `Cell::new(ch, style)`;
out-of-bounds writes are silently ignored. -/
def write_at (b : PageBuilder) (x y : Nat) (ch : Nat) (style : StyleFlags) :
    PageBuilder :=
  if x < 160 ∧ y < 51 then
    ⟨fun y0 x0 => if y0 = y ∧ x0 = x then Cell.new ch style else b.cells y0 x0⟩
  else
    b

/-- `PageBuilder::write_str`: writes characters left to right starting at
`x`, breaking at column 160 (silent horizontal truncation). -/
def write_str (b : PageBuilder) (x y : Nat) (text : List Nat) (style : StyleFlags) :
    PageBuilder :=
  match text with
  | [] => b
  | ch :: rest =>
    if 160 ≤ x then b
    else (b.write_at x y ch style).write_str (x + 1) y rest style

end PageBuilder

/-- `Page`: the frozen grid produced by `PageBuilder::build`. -/
structure Page where
  cells : Nat → Nat → Cell

/-- `PageBuilder::build`. -/
def PageBuilder.build (b : PageBuilder) : Page := ⟨b.cells⟩

/-- Row `y` of a page, as the renderer's `&[Cell; 160]` slice. -/
def Page.row (p : Page) (y : Nat) : List Cell :=
  (List.range 160).map fun x => p.cells y x

/-- Well-formedness of a page grid: every in-bounds cell holds a printable
ASCII byte.  `PageBuilder` establishes and preserves this (cells are only
ever `Cell::EMPTY` or built by `Cell::new`). -/
def Page.Wf (p : Page) : Prop :=
  ∀ y < 51, ∀ x < 160, 32 ≤ (p.cells y x).character ∧ (p.cells y x).character ≤ 126

instance (p : Page) : Decidable p.Wf := by
  unfold Page.Wf; infer_instance

/-- `Document { pages: Vec<Page> }` (`src/document.rs`). -/
structure Document where
  pages : List Page

/-! ## Label widget (`src/widget/label.rs`)

The const-generic `Label<WIDTH, 1>` is modelled with a runtime `width`
field.  `add_text` counts Rust string *bytes*, so the text is a list of
UTF-8 byte values; `contains('\n')` is byte `10` membership (a byte `10`
occurs in UTF-8 exactly when the char `'\n'` does). -/

/-- `Label<WIDTH, 1> { text, style }`. -/
structure LabelW where
  width : Nat
  text : Option (List Nat)
  style : StyleFlags
deriving DecidableEq

namespace LabelW

/-- `Label::new` (text empty, no styling). -/
def new (width : Nat) : LabelW := ⟨width, none, StyleFlags.NONE⟩

/-- `contains("\r\n")`: a `13, 10` byte pair occurs somewhere. -/
def containsCRLF : List Nat → Bool
  | a :: b :: rest => (a == 13 && b == 10) || containsCRLF (b :: rest)
  | _ => false

/-- `Label::add_text`: rejects text whose byte length exceeds `WIDTH` and
text containing `'\n'` or `"\r\n"`; otherwise stores the text unchanged.
`text.len() as u16` in the error payload truncates, hence `% 65536`. -/
def add_text (l : LabelW) (text : List Nat) : Except RenderError LabelW :=
  if text.length > l.width then
    .error (.TextExceedsWidth (text.length % U16MOD) l.width)
  else if 10 ∈ text ∨ containsCRLF text then
    .error (.TextExceedsWidth (text.length % U16MOD) l.width)
  else
    .ok { l with text := some text }

/-- `Label::bold`. -/
def boldStyle (l : LabelW) : LabelW := { l with style := l.style.with_bold }

/-- `Label::underline`. -/
def underlineStyle (l : LabelW) : LabelW := { l with style := l.style.with_underline }

end LabelW

/-! ## Widget tree (`src/widget/rect.rs`, `src/widget/tree.rs`)

The two concrete widget kinds, with the type-erased child list inlined as
a list of `(relative position, widget)` pairs.  Const-generic dimensions
become data. -/

/-- A widget: a `Label<w, 1>` leaf or a `Rect<w, h>` container. -/
inductive Widget where
  | label (width : Nat) (text : Option (List Nat)) (style : StyleFlags)
  | rect (width height : Nat) (children : List ((Nat × Nat) × Widget))

namespace Widget

/-- `Widget::WIDTH`. -/
def width : Widget → Nat
  | .label w _ _ => w
  | .rect w _ _ => w

/-- `Widget::HEIGHT` (labels are single-line). -/
def height : Widget → Nat
  | .label _ _ _ => 1
  | .rect _ h _ => h

end Widget

/-- The runtime state of a `Rect<WIDTH, HEIGHT>` container under
construction: its const-generic dimensions plus the child list. -/
structure RectState where
  width : Nat
  height : Nat
  children : List ((Nat × Nat) × Widget)

/-- Bounding box `(x, y, w, h)` of a stored child node (position plus the
node's cached widget dimensions). -/
def childBox (c : (Nat × Nat) × Widget) : Nat × Nat × Nat × Nat :=
  (c.1.1, c.1.2, c.2.width, c.2.height)

/-- The AABB strict-intersection test used by `Rect::add_child`
(`child_right > ex ∧ x < existing_right ∧ child_bottom > ey ∧ y < existing_bottom`). -/
def strictOverlap (a b : Nat × Nat × Nat × Nat) : Prop :=
  b.1 + b.2.2.1 > a.1 ∧ b.1 < a.1 + a.2.2.1 ∧
  b.2.1 + b.2.2.2 > a.2.1 ∧ b.2.1 < a.2.1 + a.2.2.2

instance (a b : Nat × Nat × Nat × Nat) : Decidable (strictOverlap a b) := by
  unfold strictOverlap; infer_instance

namespace RectState

/-- `Rect::new` (children empty). -/
def new (width height : Nat) : RectState := ⟨width, height, []⟩

/-- The overlap scan inside `Rect::add_child`: walks the existing children
in order; `checked_add` failures raise `IntegerOverflow`, the first strict
AABB intersection raises `OverlappingChildren` naming both boxes. -/
def checkOverlaps (pos : Nat × Nat) (child_right child_bottom : Nat)
    (child_width child_height : Nat) :
    List ((Nat × Nat) × Widget) → Except RenderError Unit
  | [] => .ok ()
  | (epos, ew) :: rest =>
    if epos.1 + ew.width > 65535 ∨ epos.2 + ew.height > 65535 then
      .error (.IntegerOverflow "existing child bounds calculation")
    else
      let existing_right := epos.1 + ew.width
      let existing_bottom := epos.2 + ew.height
      if child_right > epos.1 ∧ pos.1 < existing_right ∧
         child_bottom > epos.2 ∧ pos.2 < existing_bottom then
        .error (.OverlappingChildren (epos.1, epos.2, ew.width, ew.height)
          (pos.1, pos.2, child_width, child_height))
      else
        checkOverlaps pos child_right child_bottom child_width child_height rest

/-- `Rect::add_child`: checked position arithmetic, parent-bounds check,
overlap scan, then append.  Every early error return leaves the child list
untouched (`self` is only mutated by the final push). -/
def add_child (s : RectState) (w : Widget) (pos : Nat × Nat) :
    Except RenderError Unit × RectState :=
  if pos.1 + w.width > 65535 then
    (.error (.IntegerOverflow ("child position.x (" ++ toString pos.1 ++
      ") + width (" ++ toString w.width ++ ")")), s)
  else if pos.2 + w.height > 65535 then
    (.error (.IntegerOverflow ("child position.y (" ++ toString pos.2 ++
      ") + height (" ++ toString w.height ++ ")")), s)
  else if pos.1 + w.width > s.width ∨ pos.2 + w.height > s.height then
    (.error (.ChildExceedsParent s.width s.height w.width w.height pos), s)
  else
    match checkOverlaps pos (pos.1 + w.width) (pos.2 + w.height) w.width w.height s.children with
    | .error e => (.error e, s)
    | .ok () => (.ok (), { s with children := s.children ++ [(pos, w)] })

end RectState

/-! ## Layout allocators (`src/widget/layout/column.rs`, `row.rs`)

`Column<WIDTH, HEIGHT>` / `Row<WIDTH, HEIGHT>` cursors.  The guard
`self.current_y + H > HEIGHT` uses unchecked `u16` addition, so the sum is
taken `% 65536`.  `area` returns the new container's dimensions and its
position, alongside the updated cursor. -/

/-- `Column<WIDTH, HEIGHT> { current_y }`. -/
structure ColumnState where
  width : Nat
  height : Nat
  current_y : Nat
deriving DecidableEq

namespace ColumnState

/-- `Column::new`. -/
def new (width height : Nat) : ColumnState := ⟨width, height, 0⟩

/-- `Column::area::<H>`: returns a `(WIDTH, H)` box at `(0, current_y)` and
advances the cursor, or fails with `InsufficientSpace` leaving the cursor
unchanged. -/
def area (s : ColumnState) (h : Nat) :
    Except RenderError ((Nat × Nat) × (Nat × Nat)) × ColumnState :=
  if (s.current_y + h) % U16MOD > s.height then
    (.error (.InsufficientSpace (s.height - s.current_y) h "Column"), s)
  else
    (.ok ((s.width, h), (0, s.current_y)),
     { s with current_y := (s.current_y + h) % U16MOD })

end ColumnState

/-- Runs a sequence of `Column::area` requests in order, reporting whether
every call succeeded, together with the final cursor state (a failed call
stops the run). -/
def ColumnState.areaSeq (s : ColumnState) : List Nat → Bool × ColumnState
  | [] => (true, s)
  | h :: rest =>
    match s.area h with
    | (.ok _, s') => s'.areaSeq rest
    | (.error _, s') => (false, s')

/-- `Row<WIDTH, HEIGHT> { current_x }`. -/
structure RowState where
  width : Nat
  height : Nat
  current_x : Nat
deriving DecidableEq

namespace RowState

/-- `Row::new`. -/
def new (width height : Nat) : RowState := ⟨width, height, 0⟩

/-- `Row::area::<W>`: symmetric to `Column::area` on the x axis. -/
def area (s : RowState) (w : Nat) :
    Except RenderError ((Nat × Nat) × (Nat × Nat)) × RowState :=
  if (s.current_x + w) % U16MOD > s.width then
    (.error (.InsufficientSpace (s.width - s.current_x) w "Row"), s)
  else
    (.ok ((w, s.height), (s.current_x, 0)),
     { s with current_x := (s.current_x + w) % U16MOD })

end RowState

/-! ## Render context (`src/widget/context.rs`) and widget rendering -/

/-- `RenderContext { page_builder, clip_bounds }`; `clip_bounds` is the
`(x, y, width, height)` tuple, fixed at `(0, 0, 160, 51)` by `new`. -/
structure RenderContext where
  page_builder : PageBuilder
  clip_bounds : Nat × Nat × Nat × Nat

namespace RenderContext

/-- `RenderContext::new`: full-page clip bounds. -/
def new (pb : PageBuilder) : RenderContext := ⟨pb, (0, 0, 160, 51)⟩

/-- `RenderContext::write_text`: validates only the start position against
`clip_bounds.2/.3`, then delegates to `PageBuilder::write_str` with no
styling. -/
def write_text (ctx : RenderContext) (text : List Nat) (position : Nat × Nat) :
    Except RenderError RenderContext :=
  if position.1 ≥ ctx.clip_bounds.2.2.1 ∨ position.2 ≥ ctx.clip_bounds.2.2.2 then
    .error (.OutOfBounds position ctx.clip_bounds)
  else
    .ok { ctx with
      page_builder := ctx.page_builder.write_str position.1 position.2 text StyleFlags.NONE }

/-- `RenderContext::write_styled`: same start-position validation, then
delegates to `PageBuilder::write_str` with the given style. -/
def write_styled (ctx : RenderContext) (text : List Nat) (position : Nat × Nat)
    (style : StyleFlags) : Except RenderError RenderContext :=
  if position.1 ≥ ctx.clip_bounds.2.2.1 ∨ position.2 ≥ ctx.clip_bounds.2.2.2 then
    .error (.OutOfBounds position ctx.clip_bounds)
  else
    .ok { ctx with
      page_builder := ctx.page_builder.write_str position.1 position.2 text style }

end RenderContext

/-- `u16` addition as performed by `Rect::render_to` on child positions
(unchecked in the source, hence wrapping). -/
def u16add (a b : Nat) : Nat := (a + b) % U16MOD

mutual

/-- `Widget::render_to`: a label with text issues one `write_styled` at the
given absolute position (an empty label renders nothing); a rect renders
its children depth-first in insertion order at
`parent_position + child.relative_position`, failing fast. -/
def Widget.render_to : Widget → RenderContext → Nat × Nat →
    Except RenderError RenderContext
  | .label _ none _, ctx, _ => .ok ctx
  | .label _ (some text) style, ctx, pos => ctx.write_styled text pos style
  | .rect _ _ children, ctx, pos => Widget.renderChildren children ctx pos

/-- The child loop of `Rect::render_to`. -/
def Widget.renderChildren : List ((Nat × Nat) × Widget) → RenderContext →
    Nat × Nat → Except RenderError RenderContext
  | [], ctx, _ => .ok ctx
  | (cpos, w) :: rest, ctx, pos =>
    match w.render_to ctx (u16add pos.1 cpos.1, u16add pos.2 cpos.2) with
    | .error e => .error e
    | .ok ctx' => Widget.renderChildren rest ctx' pos

end

/-- `PageBuilder::render` (`src/page.rs`): creates a context and renders the
root widget at `(0, 0)`, returning the updated builder. -/
def PageBuilder.render (pb : PageBuilder) (w : Widget) :
    Except RenderError PageBuilder :=
  match w.render_to (RenderContext.new pb) (0, 0) with
  | .error e => .error e
  | .ok ctx => .ok ctx.page_builder

/-! ## ESC/P serializer (`src/escp/constants.rs`, `state.rs`, `renderer.rs`) -/

/-- `ESC @`: reset. -/
def ESC_RESET : List Nat := [0x1B, 0x40]

/-- `SI`: condensed mode. -/
def SI_CONDENSED : List Nat := [0x0F]

/-- `ESC E`: bold on. -/
def ESC_BOLD_ON : List Nat := [0x1B, 0x45]

/-- `ESC F`: bold off. -/
def ESC_BOLD_OFF : List Nat := [0x1B, 0x46]

/-- `ESC - 1`: underline on. -/
def ESC_UNDERLINE_ON : List Nat := [0x1B, 0x2D, 0x01]

/-- `ESC - 0`: underline off. -/
def ESC_UNDERLINE_OFF : List Nat := [0x1B, 0x2D, 0x00]

/-- Carriage return. -/
def CR : Nat := 0x0D

/-- Line feed. -/
def LF : Nat := 0x0A

/-- Form feed (page separator). -/
def FF : Nat := 0x0C

/-- `RenderState { bold, underline }`: the 2-flag style state machine. -/
structure RenderState where
  bold : Bool
  underline : Bool
deriving DecidableEq

namespace RenderState

/-- `RenderState::new`: no styles active. -/
def new : RenderState := ⟨false, false⟩

/-- `RenderState::transition_to`: emits a bold on/off code only when the
bold flag changes, then an underline on/off code only when the underline
flag changes; returns the updated state and the emitted bytes. -/
def transition_to (s : RenderState) (target : StyleFlags) :
    RenderState × List Nat :=
  let p1 :=
    if target.bold ≠ s.bold then
      ({ s with bold := target.bold },
       if target.bold then ESC_BOLD_ON else ESC_BOLD_OFF)
    else (s, [])
  let p2 :=
    if target.underline ≠ p1.1.underline then
      ({ p1.1 with underline := target.underline },
       if target.underline then ESC_UNDERLINE_ON else ESC_UNDERLINE_OFF)
    else (p1.1, [])
  (p2.1, p1.2 ++ p2.2)

/-- `RenderState::reset`: turns any still-active flag off, bold first. -/
def reset (s : RenderState) : RenderState × List Nat :=
  (⟨false, false⟩,
   (if s.bold then ESC_BOLD_OFF else []) ++
   (if s.underline then ESC_UNDERLINE_OFF else []))

end RenderState

/-- `render_line`: per cell, transition the state machine to the cell's
style, then emit the character byte. -/
def render_line : List Cell → RenderState → RenderState × List Nat
  | [], s => (s, [])
  | c :: rest, s =>
    let p := s.transition_to c.style
    let q := render_line rest p.1
    (q.1, p.2 ++ c.character :: q.2)

/-- The row loop of `render_page`: each row's bytes, then `CR LF`, then the
end-of-line style reset, threading the state. -/
def render_rows : List (List Cell) → RenderState → List Nat
  | [], _ => []
  | row :: rest, s =>
    let p := render_line row s
    let r := p.1.reset
    p.2 ++ [CR, LF] ++ r.2 ++ render_rows rest r.1

/-- `render_page`: all 51 rows from a fresh `RenderState`. -/
def render_page (p : Page) : List Nat :=
  render_rows ((List.range 51).map p.row) RenderState.new

/-- The page loop of `render_document`: page content then a form feed. -/
def render_pages : List Page → List Nat
  | [] => []
  | p :: rest => render_page p ++ [FF] ++ render_pages rest

/-- `render_document`: init sequence (`ESC @`, `SI`), then each page
followed by a form feed. -/
def render_document (d : Document) : List Nat :=
  ESC_RESET ++ SI_CONDENSED ++ render_pages d.pages

/-- `Document::render`, the sole output entry point. -/
def Document.render (d : Document) : List Nat := render_document d

/-! ## Observation helpers for the serializer theorems -/

/-- The byte contribution of one row inside `render_page`: the line's
bytes from a fresh state, `CR LF`, then the end-of-line reset bytes.
(`RenderState::reset` always returns the all-off state, so every row of
`render_rows` starts from `RenderState::new`.) -/
def render_row_bytes (row : List Cell) : List Nat :=
  let p := render_line row RenderState.new
  p.2 ++ [CR, LF] ++ p.1.reset.2

/-- Number of adjacent `a, b` byte pairs in a stream (used to count
occurrences of the two-byte codes `1B 45` / `1B 46`). -/
def countPairs (a b : Nat) : List Nat → Nat
  | x :: y :: rest => (if x = a ∧ y = b then 1 else 0) + countPairs a b (y :: rest)
  | _ => 0

/-- Number of `false → true` transitions in a flag sequence starting from
`prev`. -/
def countRises (prev : Bool) : List Bool → Nat
  | [] => 0
  | b :: rest => (b && !prev).toNat + countRises b rest

/-- Number of `true → false` transitions in a flag sequence starting from
`prev`. -/
def countFalls (prev : Bool) : List Bool → Nat
  | [] => 0
  | b :: rest => (!b && prev).toNat + countFalls b rest

/-- The last flag value of a sequence (or `prev` if empty). -/
def finalFlag (prev : Bool) : List Bool → Bool
  | [] => prev
  | b :: rest => finalFlag b rest

/-! ## Observation helpers for the widget-tree theorem

`writeTrace` replays the recursion of `Widget::render_to` but records the
`write_styled` calls instead of performing them; `absPos`/`leafPaths` are
modelled from the spec's words (cumulative plain sums of relative offsets
along ancestor paths, depth-first insertion order) for comparison. -/

mutual

/-- The sequence of `write_styled` calls `Widget::render_to` issues:
`(absolute position, text, style)` per texted label, depth-first in
insertion order, with the source's (wrapping) position accumulation. -/
def Widget.writeTrace : Widget → Nat × Nat →
    List ((Nat × Nat) × List Nat × StyleFlags)
  | .label _ none _, _ => []
  | .label _ (some t) st, pos => [(pos, t, st)]
  | .rect _ _ children, pos => Widget.traceChildren children pos

/-- The child loop of `Widget.writeTrace`. -/
def Widget.traceChildren : List ((Nat × Nat) × Widget) → Nat × Nat →
    List ((Nat × Nat) × List Nat × StyleFlags)
  | [], _ => []
  | (cpos, w) :: rest, pos =>
    w.writeTrace (u16add pos.1 cpos.1, u16add pos.2 cpos.2) ++
      Widget.traceChildren rest pos

end

/-- Sequentially performs a list of recorded styled writes on a context. -/
def replay (ctx : RenderContext) :
    List ((Nat × Nat) × List Nat × StyleFlags) →
    Except RenderError RenderContext
  | [] => .ok ctx
  | (pos, t, st) :: rest =>
    match ctx.write_styled t pos st with
    | .error e => .error e
    | .ok ctx' => replay ctx' rest

/-- Modelled from the spec: the subtree reached from a widget by a path of
child indices. -/
def Widget.subtreeAt (w : Widget) : List Nat → Option Widget
  | [] => some w
  | i :: rest =>
    match w with
    | .rect _ _ children =>
      match children.get? i with
      | some (_, c) => c.subtreeAt rest
      | none => none
    | .label _ _ _ => none

/-- Modelled from the spec: the component-wise *plain* (non-wrapping) sum
of `base` and every relative offset along a path of child indices — "the
sum of every ancestor container's relative offset plus the leaf's own
relative position". -/
def Widget.absPos (w : Widget) : List Nat → Nat × Nat → Option (Nat × Nat)
  | [], base => some base
  | i :: rest, base =>
    match w with
    | .rect _ _ children =>
      match children.get? i with
      | some (cpos, c) => c.absPos rest (base.1 + cpos.1, base.2 + cpos.2)
      | none => none
    | .label _ _ _ => none

/-- The text and style of the label at a path, when the path leads to a
label carrying text. -/
def Widget.labelAt (w : Widget) (p : List Nat) :
    Option (List Nat × StyleFlags) :=
  match w.subtreeAt p with
  | some (.label _ (some t) st) => some (t, st)
  | _ => none

mutual

/-- Modelled from the spec: the paths to all texted labels, depth-first in
insertion order. -/
def Widget.leafPaths : Widget → List (List Nat)
  | .label _ (some _) _ => [[]]
  | .label _ none _ => []
  | .rect _ _ children => Widget.leafPathsChildren children 0

/-- The child loop of `Widget.leafPaths`, carrying the child index. -/
def Widget.leafPathsChildren : List ((Nat × Nat) × Widget) → Nat →
    List (List Nat)
  | [], _ => []
  | (_, w) :: rest, i =>
    (w.leafPaths).map (i :: ·) ++ Widget.leafPathsChildren rest (i + 1)

end

mutual

/-- Tree well-formedness guaranteed by the composition API: every widget
has non-zero dimensions (`Rect::new`/`Label::new` debug-assert this) and
every child's bounding box fits inside its parent (`Rect::add_child`
rejects anything else). -/
def Widget.wfB : Widget → Bool
  | .label w _ _ => w != 0
  | .rect w h children => w != 0 && h != 0 && Widget.childrenWfB w h children

/-- The child loop of `Widget.wfB`. -/
def Widget.childrenWfB (w h : Nat) : List ((Nat × Nat) × Widget) → Bool
  | [] => true
  | (cpos, c) :: rest =>
    decide (cpos.1 + c.width ≤ w) && decide (cpos.2 + c.height ≤ h) &&
      c.wfB && Widget.childrenWfB w h rest

end

/-! # Theorems -/

/-! ## C4: Region operation invariants -/

/-- C4 (counterexample): the claim "for every Region and every split size
h ≤ the parent's corresponding dimension, both halves satisfy the
invariant" fails at `h = 0`: `full_page.split_vertical 0` succeeds and
returns a *zero-height* top region, which violates `width>0 ∧ height>0`. -/
theorem C4_split_zero_breaks_invariant :
    Region.full_page.split_vertical 0 =
      .ok (⟨0, 0, 160, 0⟩, ⟨0, 0, 160, 51⟩) ∧
    ¬ (Region.mk 0 0 160 0).invariant := by
  constructor
  · rfl
  · decide

/-- C4 (amended): `Region::new` returns only invariant-satisfying regions
or fails; for an invariant parent, `split_vertical h` / `split_horizontal h`
with `0 < h <` the corresponding parent dimension yield two halves that
both satisfy the invariant; `with_padding` returns an invariant region or
fails.  (With `h = 0` or `h =` the parent dimension, the split succeeds but
one half has a zero dimension.) -/
theorem C4_region_ops_invariant :
    (∀ x y w h r, Region.new x y w h = .ok r → r.invariant) ∧
    (∀ (r : Region) th t b, r.invariant → 0 < th → th < r.height →
      r.split_vertical th = .ok (t, b) → t.invariant ∧ b.invariant) ∧
    (∀ (r : Region) lw le ri, r.invariant → 0 < lw → lw < r.width →
      r.split_horizontal lw = .ok (le, ri) → le.invariant ∧ ri.invariant) ∧
    (∀ (r : Region) top right bottom left r', r.invariant →
      r.with_padding top right bottom left = .ok r' → r'.invariant) := by
  refine ⟨?_, ?_, ?_, ?_⟩
  · intro x y w h r hr
    unfold Region.new at hr
    split at hr
    · exact absurd hr (by simp)
    split at hr
    · exact absurd hr (by simp)
    · rename_i h1 h2
      rw [Except.ok.injEq] at hr
      subst hr
      simp only [Region.invariant, PAGE_WIDTH, PAGE_HEIGHT] at h1 h2 ⊢
      omega
  · intro r th t b hinv hpos hlt hr
    unfold Region.split_vertical at hr
    split at hr
    · exact absurd hr (by simp)
    · rw [Except.ok.injEq, Prod.mk.injEq] at hr
      obtain ⟨ht, hb⟩ := hr
      subst ht; subst hb
      obtain ⟨h1, h2, h3, h4⟩ := hinv
      simp only [Region.invariant, PAGE_WIDTH, PAGE_HEIGHT] at *
      omega
  · intro r lw le ri hinv hpos hlt hr
    unfold Region.split_horizontal at hr
    split at hr
    · exact absurd hr (by simp)
    · rw [Except.ok.injEq, Prod.mk.injEq] at hr
      obtain ⟨hl, hri⟩ := hr
      subst hl; subst hri
      obtain ⟨h1, h2, h3, h4⟩ := hinv
      simp only [Region.invariant, PAGE_WIDTH, PAGE_HEIGHT] at *
      omega
  · intro r top right bottom left r' hinv hr
    simp only [Region.with_padding] at hr
    split at hr
    · exact absurd hr (by simp)
    · rename_i hguard
      rw [Except.ok.injEq] at hr
      subst hr
      obtain ⟨h1, h2, h3, h4⟩ := hinv
      simp only [Region.invariant, PAGE_WIDTH, PAGE_HEIGHT] at *
      omega

/-- C4 witness: splitting the full page at height 10 yields the header
region `(0,0,160,10)` and body region `(0,10,160,41)`, both invariant. -/
theorem C4_region_ops_invariant_witness :
    (Region.mk 0 0 160 10).invariant ∧ (Region.mk 0 10 160 41).invariant :=
  C4_region_ops_invariant.2.1 Region.full_page 10 _ _ (by decide) (by decide)
    (by decide) rfl

/-! ## C7: Label text validation -/

/-- An embedded `"\r\n"` implies an embedded `'\n'` byte. -/
theorem containsCRLF_mem : ∀ {text : List Nat},
    LabelW.containsCRLF text = true → 10 ∈ text := by
  intro text
  induction text with
  | nil => simp [LabelW.containsCRLF]
  | cons a rest ih =>
    cases rest with
    | nil => simp [LabelW.containsCRLF]
    | cons b rest' =>
      intro h
      simp only [LabelW.containsCRLF, Bool.or_eq_true, Bool.and_eq_true,
        beq_iff_eq] at h
      rcases h with ⟨h1, h2⟩ | h
      · simp [h2]
      · exact List.mem_cons_of_mem _ (ih h)

/-- C7: `Label::add_text` fails exactly when the text's byte length
exceeds the declared width or the text contains a newline; the only error
it produces is `TextExceedsWidth`; otherwise it succeeds and stores the
text unchanged. -/
theorem C7_label_add_text (l : LabelW) (text : List Nat) :
    ((∃ e, l.add_text text = .error e) ↔ (l.width < text.length ∨ 10 ∈ text)) ∧
    (∀ e, l.add_text text = .error e →
      e = .TextExceedsWidth (text.length % U16MOD) l.width) ∧
    (¬ (l.width < text.length ∨ 10 ∈ text) →
      l.add_text text = .ok { l with text := some text }) := by
  by_cases hlen : l.width < text.length
  · have hadd : l.add_text text =
        .error (.TextExceedsWidth (text.length % U16MOD) l.width) := by
      unfold LabelW.add_text
      rw [if_pos hlen]
    refine ⟨⟨fun _ => Or.inl hlen, fun _ => ⟨_, hadd⟩⟩, ?_, ?_⟩
    · intro e he
      rw [hadd] at he
      exact ((Except.error.injEq _ _).mp he).symm
    · intro hno
      exact absurd (Or.inl hlen) hno
  · by_cases hnl : 10 ∈ text ∨ LabelW.containsCRLF text
    · have h10 : 10 ∈ text := hnl.elim id fun h => containsCRLF_mem h
      have hadd : l.add_text text =
          .error (.TextExceedsWidth (text.length % U16MOD) l.width) := by
        unfold LabelW.add_text
        rw [if_neg hlen, if_pos hnl]
      refine ⟨⟨fun _ => Or.inr h10, fun _ => ⟨_, hadd⟩⟩, ?_, ?_⟩
      · intro e he
        rw [hadd] at he
        exact ((Except.error.injEq _ _).mp he).symm
      · intro hno
        exact absurd (Or.inr h10) hno
    · have hadd : l.add_text text = .ok { l with text := some text } := by
        unfold LabelW.add_text
        rw [if_neg hlen, if_neg hnl]
      refine ⟨⟨?_, ?_⟩, ?_, ?_⟩
      · rintro ⟨e, he⟩
        rw [hadd] at he
        exact Except.noConfusion he
      · rintro (h | h)
        · exact absurd h hlen
        · exact absurd (Or.inl h) hnl
      · intro e he
        rw [hadd] at he
        exact Except.noConfusion he
      · intro _
        exact hadd

/-- C7 witness: for a width-10 label, an 11-byte text and a text containing
`'\n'` fail with `TextExceedsWidth`, while a 10-byte newline-free text
succeeds and is stored unchanged. -/
theorem C7_label_add_text_witness :
    ((∃ e, (LabelW.new 10).add_text [65, 65, 65, 65, 65, 65, 65, 65, 65, 65, 65] = .error e) ∧
     (∃ e, (LabelW.new 10).add_text [65, 10, 65] = .error e)) ∧
    (LabelW.new 10).add_text [65, 66, 67, 68, 69, 70, 71, 72, 73, 74] =
      .ok ⟨10, some [65, 66, 67, 68, 69, 70, 71, 72, 73, 74], StyleFlags.NONE⟩ :=
  ⟨⟨(C7_label_add_text (LabelW.new 10) _).1.mpr (by decide),
    (C7_label_add_text (LabelW.new 10) _).1.mpr (by decide)⟩,
   (C7_label_add_text (LabelW.new 10) _).2.2 (by decide)⟩

/-! ## C6: Column space exhaustion

The guard in `Column::area` is `self.current_y + H > HEIGHT` with
*unchecked* `u16` addition.  Once `current_y = HEIGHT = 30`, a request of
`H = 65506` makes the sum wrap to `0`, so the guard passes and the
allocation is wrongly accepted (debug builds panic on the overflow
instead); the claim — and the method's own documentation — require an
`InsufficientSpace` failure.  The lemmas below establish the claim's
intended content on the overflow-free domain. -/

/-- A sequence of `area` requests that fits the remaining space succeeds
call by call and advances the cursor by exactly the sum of the requests. -/
theorem areaSeq_fits (hs : List Nat) : ∀ (s : ColumnState), s.height ≤ 65535 →
    s.current_y + hs.sum ≤ s.height →
    s.areaSeq hs = (true, ⟨s.width, s.height, s.current_y + hs.sum⟩) := by
  induction hs with
  | nil =>
    intro s _ _
    simp [ColumnState.areaSeq]
  | cons h rest ih =>
    intro s hh hsum
    have hlt : s.current_y + h < U16MOD := by
      simp only [List.sum_cons] at hsum
      unfold U16MOD
      omega
    have hmod : (s.current_y + h) % U16MOD = s.current_y + h :=
      Nat.mod_eq_of_lt hlt
    have hle : ¬ (s.current_y + h) % U16MOD > s.height := by
      rw [hmod]
      simp only [List.sum_cons] at hsum
      omega
    unfold ColumnState.areaSeq ColumnState.area
    rw [if_neg hle]
    have := ih ⟨s.width, s.height, (s.current_y + h) % U16MOD⟩ hh
      (by simp only [hmod, List.sum_cons] at hsum ⊢; omega)
    simp only [hmod] at this ⊢
    rw [this]
    simp only [List.sum_cons]
    congr 2
    omega

/-- Once the cursor has consumed the full height, any further request that
does not overflow `u16` arithmetic fails with
`InsufficientSpace { available := 0, required, "Column" }`, cursor
unchanged. -/
theorem column_full_rejects (s : ColumnState) (req : Nat)
    (hfull : s.current_y = s.height) (hpos : 1 ≤ req)
    (hnof : s.current_y + req ≤ 65535) :
    s.area req = (.error (.InsufficientSpace 0 req "Column"), s) := by
  unfold ColumnState.area
  have hmod : (s.current_y + req) % U16MOD = s.current_y + req :=
    Nat.mod_eq_of_lt (by unfold U16MOD; omega)
  rw [if_pos (by rw [hmod]; omega)]
  rw [hfull, Nat.sub_self]

/-- C6: evaluation at the failing input.  A `Column<80, 30>` whose cursor
has reached 30 (here via one `area(30)` call) *accepts* a further request
of 65506: the `u16` sum `30 + 65506` wraps to `0`, the guard passes, and
the call returns a height-65506 box at `(0, 30)` with the cursor wrapped
to `0` — where the claim (and `Column::area`'s own documentation) requires
an `InsufficientSpace` failure. -/
theorem C6_column_overflow_accepts :
    ((ColumnState.new 80 30).area 30).2.area 65506 =
      (.ok ((80, 65506), (0, 30)), ⟨80, 30, 0⟩) := rfl

/-! ## C8: Composition operations are atomic per call -/

/-- C8: whenever `Rect::add_child`, `Column::area` or `Row::area` returns
an error, the container's child list (resp. the allocator's cursor) is
exactly as it was before the call. -/
theorem C8_composition_atomic :
    (∀ (s : RectState) (w : Widget) (pos : Nat × Nat) e,
      (s.add_child w pos).1 = .error e → (s.add_child w pos).2 = s) ∧
    (∀ (c : ColumnState) (h : Nat) e,
      (c.area h).1 = .error e → (c.area h).2 = c) ∧
    (∀ (r : RowState) (wd : Nat) e,
      (r.area wd).1 = .error e → (r.area wd).2 = r) := by
  refine ⟨?_, ?_, ?_⟩
  · intro s w pos e he
    unfold RectState.add_child
    by_cases h1 : pos.1 + w.width > 65535
    · rw [if_pos h1]
    · rw [if_neg h1]
      by_cases h2 : pos.2 + w.height > 65535
      · rw [if_pos h2]
      · rw [if_neg h2]
        by_cases h3 : pos.1 + w.width > s.width ∨ pos.2 + w.height > s.height
        · rw [if_pos h3]
        · rw [if_neg h3]
          unfold RectState.add_child at he
          rw [if_neg h1, if_neg h2, if_neg h3] at he
          cases hco : RectState.checkOverlaps pos (pos.1 + w.width)
              (pos.2 + w.height) w.width w.height s.children with
          | error e' => rfl
          | ok u =>
            cases u
            rw [hco] at he
            exact Except.noConfusion he
  · intro c h e he
    unfold ColumnState.area at he ⊢
    by_cases hc : (c.current_y + h) % U16MOD > c.height
    · rw [if_pos hc]
    · rw [if_neg hc] at he
      exact Except.noConfusion he
  · intro r wd e he
    unfold RowState.area at he ⊢
    by_cases hc : (r.current_x + wd) % U16MOD > r.width
    · rw [if_pos hc]
    · rw [if_neg hc] at he
      exact Except.noConfusion he

/-- C8 witness: a too-large child leaves the container's child list
untouched; a too-large allocation leaves the Column and Row cursors
untouched. -/
theorem C8_composition_atomic_witness :
    ((RectState.new 20 20).add_child (Widget.rect 30 10 []) (0, 0)).2 =
      RectState.new 20 20 ∧
    ((ColumnState.mk 80 30 30).area 1).2 = ColumnState.mk 80 30 30 ∧
    ((RowState.mk 80 30 80).area 1).2 = RowState.mk 80 30 80 :=
  ⟨C8_composition_atomic.1 _ _ _ (.ChildExceedsParent 20 20 30 10 (0, 0)) rfl,
   C8_composition_atomic.2.1 _ _ (.InsufficientSpace 0 1 "Column") rfl,
   C8_composition_atomic.2.2 _ _ (.InsufficientSpace 0 1 "Row") rfl⟩

/-! ## Grid write framing (shared by C9 and C10) -/

/-- `write_at` leaves every cell other than `(x, y)` unchanged. -/
theorem write_at_frame (b : PageBuilder) (x y ch : Nat) (st : StyleFlags)
    (x' y' : Nat) (h : ¬ (y' = y ∧ x' = x)) :
    (b.write_at x y ch st).cells y' x' = b.cells y' x' := by
  unfold PageBuilder.write_at
  split
  · simp only [if_neg h]
  · rfl

/-- `write_at` outside the 160×51 grid is the identity. -/
theorem write_at_oob (b : PageBuilder) (x y ch : Nat) (st : StyleFlags)
    (h : ¬ (x < 160 ∧ y < 51)) : b.write_at x y ch st = b := by
  unfold PageBuilder.write_at
  rw [if_neg h]

/-- `write_str x y text` changes at most row `y`, columns
`x ≤ x' < min (x + text.length) 160`. -/
theorem write_str_frame : ∀ (text : List Nat) (b : PageBuilder) (x y : Nat)
    (st : StyleFlags) (x' y' : Nat),
    y' ≠ y ∨ x' < x ∨ min (x + text.length) 160 ≤ x' →
    (b.write_str x y text st).cells y' x' = b.cells y' x' := by
  intro text
  induction text with
  | nil => intro b x y st x' y' _; rfl
  | cons ch rest ih =>
    intro b x y st x' y' h
    unfold PageBuilder.write_str
    by_cases hx : 160 ≤ x
    · rw [if_pos hx]
    · rw [if_neg hx]
      have hcond : y' ≠ y ∨ x' < x + 1 ∨ min (x + 1 + rest.length) 160 ≤ x' := by
        rcases h with h | h | h
        · exact Or.inl h
        · exact Or.inr (Or.inl (by omega))
        · right; right
          simp only [List.length_cons] at h
          omega
      rw [ih _ _ _ _ _ _ hcond]
      apply write_at_frame
      rintro ⟨hy, hx2⟩
      rcases h with h | h | h
      · exact h hy
      · omega
      · subst hx2
        simp only [List.length_cons] at h
        omega

/-- `write_str` on a row index past the grid (51 or more) is the identity. -/
theorem write_str_oob_row : ∀ (text : List Nat) (b : PageBuilder) (x y : Nat)
    (st : StyleFlags), 51 ≤ y → b.write_str x y text st = b := by
  intro text
  induction text with
  | nil => intro b x y st _; rfl
  | cons ch rest ih =>
    intro b x y st hy
    unfold PageBuilder.write_str
    by_cases hx : 160 ≤ x
    · rw [if_pos hx]
    · rw [if_neg hx, write_at_oob _ _ _ _ _ (by omega), ih _ _ _ _ hy]

/-! ## C9: Two-tier write policy -/

/-- C9: `write_text`/`write_styled` on a fresh full-page context fail with
`OutOfBounds` exactly when the start position is outside the clip bounds
(`x ≥ 160` or `y ≥ 51`); with a valid start they always succeed,
delegating to `write_str`, whose writes past column 160 change nothing;
a raw grid write at column 200 is the identity (no error, no panic). -/
theorem C9_write_clip_policy (pb : PageBuilder) (text : List Nat)
    (pos : Nat × Nat) (st : StyleFlags) :
    ((RenderContext.new pb).write_styled text pos st =
        .error (.OutOfBounds pos (0, 0, 160, 51)) ↔ 160 ≤ pos.1 ∨ 51 ≤ pos.2) ∧
    ((RenderContext.new pb).write_text text pos =
        .error (.OutOfBounds pos (0, 0, 160, 51)) ↔ 160 ≤ pos.1 ∨ 51 ≤ pos.2) ∧
    (pos.1 < 160 → pos.2 < 51 →
      (RenderContext.new pb).write_styled text pos st =
        .ok ⟨pb.write_str pos.1 pos.2 text st, (0, 0, 160, 51)⟩ ∧
      (RenderContext.new pb).write_text text pos =
        .ok ⟨pb.write_str pos.1 pos.2 text StyleFlags.NONE, (0, 0, 160, 51)⟩) ∧
    (∀ x' y', 160 ≤ x' →
      (pb.write_str pos.1 pos.2 text st).cells y' x' = pb.cells y' x') ∧
    (∀ y ch st2, pb.write_at 200 y ch st2 = pb) := by
  have hcond : (pos.1 ≥ (RenderContext.new pb).clip_bounds.2.2.1 ∨
      pos.2 ≥ (RenderContext.new pb).clip_bounds.2.2.2) ↔
      (160 ≤ pos.1 ∨ 51 ≤ pos.2) := Iff.rfl
  refine ⟨?_, ?_, ?_, ?_, ?_⟩
  · unfold RenderContext.write_styled
    by_cases h : 160 ≤ pos.1 ∨ 51 ≤ pos.2
    · rw [if_pos (hcond.mpr h)]
      simp only [h, iff_true]
      rfl
    · rw [if_neg (fun hc => h (hcond.mp hc))]
      simp only [h, iff_false]
      exact fun hc => Except.noConfusion hc
  · unfold RenderContext.write_text
    by_cases h : 160 ≤ pos.1 ∨ 51 ≤ pos.2
    · rw [if_pos (hcond.mpr h)]
      simp only [h, iff_true]
      rfl
    · rw [if_neg (fun hc => h (hcond.mp hc))]
      simp only [h, iff_false]
      exact fun hc => Except.noConfusion hc
  · intro hx hy
    have h : ¬ (pos.1 ≥ (RenderContext.new pb).clip_bounds.2.2.1 ∨
        pos.2 ≥ (RenderContext.new pb).clip_bounds.2.2.2) := by
      rw [hcond]; omega
    constructor
    · unfold RenderContext.write_styled
      rw [if_neg h]
      rfl
    · unfold RenderContext.write_text
      rw [if_neg h]
      rfl
  · intro x' y' hx'
    exact write_str_frame text pb pos.1 pos.2 st x' y'
      (Or.inr (Or.inr (le_trans (min_le_right _ _) hx')))
  · intro y ch st2
    exact write_at_oob pb 200 y ch st2 (by omega)

/-- C9 witness: a styled write starting at column 200 fails with
`OutOfBounds`; a write starting at `(150, 5)` succeeds even though its
text runs past column 160; a raw `write_at` at column 200 is the
identity. -/
theorem C9_write_clip_policy_witness :
    (RenderContext.new PageBuilder.new).write_styled [72, 105] (200, 0)
        StyleFlags.BOLD =
      .error (.OutOfBounds (200, 0) (0, 0, 160, 51)) ∧
    (RenderContext.new PageBuilder.new).write_styled
        (List.replicate 20 66) (150, 5) StyleFlags.BOLD =
      .ok ⟨PageBuilder.new.write_str 150 5 (List.replicate 20 66)
        StyleFlags.BOLD, (0, 0, 160, 51)⟩ ∧
    PageBuilder.new.write_at 200 0 72 StyleFlags.NONE = PageBuilder.new :=
  ⟨(C9_write_clip_policy PageBuilder.new [72, 105] (200, 0) StyleFlags.BOLD).1.mpr
      (Or.inl (by decide)),
   ((C9_write_clip_policy PageBuilder.new (List.replicate 20 66) (150, 5)
      StyleFlags.BOLD).2.2.1 (by decide) (by decide)).1,
   (C9_write_clip_policy PageBuilder.new [] (0, 0) StyleFlags.NONE).2.2.2.2
      0 72 StyleFlags.NONE⟩

/-! ## C10: Frame effect of `write_str` -/

/-- C10: `write_str x y text` changes at most the cells of row `y` at
columns `x` through `min (x + text.length) 160 - 1`, leaving every other
cell with its previous value; with `y ≥ 51` nothing changes at all. -/
theorem C10_write_str_frame_effect (pb : PageBuilder) (x y : Nat)
    (text : List Nat) (st : StyleFlags) :
    (∀ x' y', y' ≠ y ∨ x' < x ∨ min (x + text.length) 160 ≤ x' →
      (pb.write_str x y text st).cells y' x' = pb.cells y' x') ∧
    (51 ≤ y → pb.write_str x y text st = pb) :=
  ⟨fun x' y' h => write_str_frame text pb x y st x' y' h,
   fun h => write_str_oob_row text pb x y st h⟩

/-- C10 witness: writing "AB" at `(5, 3)` leaves `(4, 3)`, `(7, 3)` and
`(5, 2)` untouched; a write on row 60 changes nothing. -/
theorem C10_write_str_frame_effect_witness :
    (PageBuilder.new.write_str 5 3 [65, 66] StyleFlags.BOLD).cells 3 4 =
      PageBuilder.new.cells 3 4 ∧
    (PageBuilder.new.write_str 5 3 [65, 66] StyleFlags.BOLD).cells 3 7 =
      PageBuilder.new.cells 3 7 ∧
    (PageBuilder.new.write_str 5 3 [65, 66] StyleFlags.BOLD).cells 2 5 =
      PageBuilder.new.cells 2 5 ∧
    PageBuilder.new.write_str 0 60 [65] StyleFlags.NONE = PageBuilder.new :=
  ⟨(C10_write_str_frame_effect PageBuilder.new 5 3 [65, 66] StyleFlags.BOLD).1
      4 3 (Or.inr (Or.inl (by decide))),
   (C10_write_str_frame_effect PageBuilder.new 5 3 [65, 66] StyleFlags.BOLD).1
      7 3 (Or.inr (Or.inr (by decide))),
   (C10_write_str_frame_effect PageBuilder.new 5 3 [65, 66] StyleFlags.BOLD).1
      5 2 (Or.inl (by decide)),
   (C10_write_str_frame_effect PageBuilder.new 0 60 [65] StyleFlags.NONE).2
      (by decide)⟩

/-! ## C5: AABB overlap boundary in `add_child` -/

/-- The overlap scan succeeds iff no existing child's bounding box strictly
intersects the new child's box; on failure the error is
`OverlappingChildren` naming the boxes of an intersecting existing child
and of the new child. -/
theorem checkOverlaps_spec :
    ∀ (children : List ((Nat × Nat) × Widget)) (pos : Nat × Nat) (cw ch : Nat),
    (∀ c ∈ children, c.1.1 + c.2.width ≤ 65535 ∧ c.1.2 + c.2.height ≤ 65535) →
    (RectState.checkOverlaps pos (pos.1 + cw) (pos.2 + ch) cw ch children =
        .ok () ↔
      ∀ c ∈ children, ¬ strictOverlap (childBox c) (pos.1, pos.2, cw, ch)) ∧
    (∀ e, RectState.checkOverlaps pos (pos.1 + cw) (pos.2 + ch) cw ch children =
        .error e →
      ∃ c ∈ children, strictOverlap (childBox c) (pos.1, pos.2, cw, ch) ∧
        e = .OverlappingChildren (childBox c) (pos.1, pos.2, cw, ch)) := by
  intro children
  induction children with
  | nil =>
    intro pos cw ch _
    refine ⟨by simp [RectState.checkOverlaps], ?_⟩
    intro e he
    exact Except.noConfusion he
  | cons c0 rest ih =>
    intro pos cw ch hex
    obtain ⟨epos, ew⟩ := c0
    have hhead := hex (epos, ew) (List.mem_cons_self _ _)
    have hrest : ∀ c ∈ rest, c.1.1 + c.2.width ≤ 65535 ∧
        c.1.2 + c.2.height ≤ 65535 :=
      fun c hc => hex c (List.mem_cons_of_mem _ hc)
    have ihr := ih pos cw ch hrest
    have hnof : ¬ (epos.1 + ew.width > 65535 ∨ epos.2 + ew.height > 65535) := by
      simp only [childBox] at hhead
      omega
    by_cases hov : pos.1 + cw > epos.1 ∧ pos.1 < epos.1 + ew.width ∧
        pos.2 + ch > epos.2 ∧ pos.2 < epos.2 + ew.height
    · have heq : RectState.checkOverlaps pos (pos.1 + cw) (pos.2 + ch) cw ch
          ((epos, ew) :: rest) =
          .error (.OverlappingChildren (epos.1, epos.2, ew.width, ew.height)
            (pos.1, pos.2, cw, ch)) := by
        unfold RectState.checkOverlaps
        rw [if_neg hnof, if_pos hov]
      have hso : strictOverlap (childBox (epos, ew)) (pos.1, pos.2, cw, ch) := hov
      refine ⟨?_, ?_⟩
      · rw [heq]
        constructor
        · intro hc
          exact Except.noConfusion hc
        · intro hall
          exact absurd hso (hall (epos, ew) (List.mem_cons_self _ _))
      · intro e he
        rw [heq] at he
        refine ⟨(epos, ew), List.mem_cons_self _ _, hso, ?_⟩
        exact ((Except.error.injEq _ _).mp he).symm
    · have heq : RectState.checkOverlaps pos (pos.1 + cw) (pos.2 + ch) cw ch
          ((epos, ew) :: rest) =
          RectState.checkOverlaps pos (pos.1 + cw) (pos.2 + ch) cw ch rest := by
        conv_lhs => unfold RectState.checkOverlaps
        rw [if_neg hnof, if_neg hov]
      have hnso : ¬ strictOverlap (childBox (epos, ew)) (pos.1, pos.2, cw, ch) :=
        hov
      refine ⟨?_, ?_⟩
      · rw [heq, ihr.1]
        constructor
        · intro hall c hc
          rcases List.mem_cons.mp hc with rfl | hc'
          · exact hnso
          · exact hall c hc'
        · intro hall c hc
          exact hall c (List.mem_cons_of_mem _ hc)
      · intro e he
        rw [heq] at he
        obtain ⟨c, hc, hso, hes⟩ := ihr.2 e he
        exact ⟨c, List.mem_cons_of_mem _ hc, hso, hes⟩

/-- C5: given the child fits the parent and no `u16` arithmetic overflows,
`add_child` succeeds iff the new child's bounding box strictly intersects
no existing child's box (touching edges allowed); any rejection is an
`OverlappingChildren` error naming an intersecting existing child's box
and the new child's box.  In particular, same-row children at x-extents
`[0,20)` and `[20,40)` are accepted, while `[0,20)` and `[10,30)` are
rejected with both boxes named. -/
theorem C5_overlap_boundary (s : RectState) (w : Widget) (pos : Nat × Nat)
    (hfitx : pos.1 + w.width ≤ s.width) (hfity : pos.2 + w.height ≤ s.height)
    (hsw : s.width ≤ 65535) (hsh : s.height ≤ 65535)
    (hex : ∀ c ∈ s.children,
      c.1.1 + c.2.width ≤ 65535 ∧ c.1.2 + c.2.height ≤ 65535) :
    ((s.add_child w pos).1 = .ok () ↔
      ∀ c ∈ s.children,
        ¬ strictOverlap (childBox c) (pos.1, pos.2, w.width, w.height)) ∧
    (∀ e, (s.add_child w pos).1 = .error e →
      ∃ c ∈ s.children,
        strictOverlap (childBox c) (pos.1, pos.2, w.width, w.height) ∧
        e = .OverlappingChildren (childBox c)
          (pos.1, pos.2, w.width, w.height)) ∧
    ((RectState.mk 40 1 [((0, 0), Widget.rect 20 1 [])]).add_child
        (Widget.rect 20 1 []) (20, 0)).1 = .ok () ∧
    ((RectState.mk 40 1 [((0, 0), Widget.rect 20 1 [])]).add_child
        (Widget.rect 20 1 []) (10, 0)).1 =
      .error (.OverlappingChildren (0, 0, 20, 1) (10, 0, 20, 1)) := by
  have h1 : ¬ pos.1 + w.width > 65535 := by omega
  have h2 : ¬ pos.2 + w.height > 65535 := by omega
  have h3 : ¬ (pos.1 + w.width > s.width ∨ pos.2 + w.height > s.height) := by
    omega
  have hco := checkOverlaps_spec s.children pos w.width w.height hex
  have heq : s.add_child w pos =
      match RectState.checkOverlaps pos (pos.1 + w.width) (pos.2 + w.height)
        w.width w.height s.children with
      | .error e => (.error e, s)
      | .ok () => (.ok (), { s with children := s.children ++ [(pos, w)] }) := by
    unfold RectState.add_child
    rw [if_neg h1, if_neg h2, if_neg h3]
  refine ⟨?_, ?_, rfl, rfl⟩
  · rw [heq]
    cases hcr : RectState.checkOverlaps pos (pos.1 + w.width)
        (pos.2 + w.height) w.width w.height s.children with
    | error e' =>
      constructor
      · intro hc
        exact Except.noConfusion hc
      · intro hall
        obtain ⟨c, hc, hso, _⟩ := hco.2 e' hcr
        exact absurd hso (hall c hc)
    | ok u =>
      cases u
      exact ⟨fun _ => hco.1.mp hcr, fun _ => rfl⟩
  · intro e he
    rw [heq] at he
    cases hcr : RectState.checkOverlaps pos (pos.1 + w.width)
        (pos.2 + w.height) w.width w.height s.children with
    | error e' =>
      rw [hcr] at he
      obtain ⟨c, hc, hso, hes⟩ := hco.2 e' hcr
      exact ⟨c, hc, hso, by rw [← (Except.error.injEq _ _).mp he, hes]⟩
    | ok u =>
      cases u
      rw [hcr] at he
      exact Except.noConfusion he

/-- C5 witness: a concrete parent with an existing `[0,20)` child accepts a
touching `[20,40)` child (no strict overlap with the existing box). -/
theorem C5_overlap_boundary_witness :
    ((RectState.mk 40 1 [((0, 0), Widget.rect 20 1 [])]).add_child
        (Widget.rect 20 1 []) (20, 0)).1 = .ok () :=
  (C5_overlap_boundary (RectState.mk 40 1 [((0, 0), Widget.rect 20 1 [])])
      (Widget.rect 20 1 []) (20, 0) (by decide) (by decide) (by decide)
      (by decide) (by decide)).1.mpr
    (by
      intro c hc
      rcases List.mem_singleton.mp hc with rfl
      decide)

/-! ## C1: wire structure of `Document::render` -/

/-- Style-transition codes never contain a form-feed byte. -/
theorem ff_not_mem_transition (s : RenderState) (t : StyleFlags) :
    12 ∉ (s.transition_to t).2 := by
  rcases s with ⟨sb, su⟩
  cases htb : t.bold <;> cases htu : t.underline <;> cases sb <;> cases su <;>
    simp [RenderState.transition_to, htb, htu, ESC_BOLD_ON, ESC_BOLD_OFF,
      ESC_UNDERLINE_ON, ESC_UNDERLINE_OFF]

/-- End-of-line reset codes never contain a form-feed byte. -/
theorem ff_not_mem_reset (s : RenderState) : 12 ∉ s.reset.2 := by
  rcases s with ⟨sb, su⟩
  cases sb <;> cases su <;>
    simp [RenderState.reset, ESC_BOLD_OFF, ESC_UNDERLINE_OFF]

/-- A rendered line of printable cells never contains a form-feed byte. -/
theorem ff_not_mem_render_line : ∀ (cells : List Cell) (s : RenderState),
    (∀ c ∈ cells, 32 ≤ c.character) → 12 ∉ (render_line cells s).2 := by
  intro cells
  induction cells with
  | nil => intro s _; simp [render_line]
  | cons c rest ih =>
    intro s hc
    have h1 := ff_not_mem_transition s c.style
    have h2 := ih (s.transition_to c.style).1
      (fun x hx => hc x (List.mem_cons_of_mem _ hx))
    have hch : c.character ≠ 12 := by
      have := hc c (List.mem_cons_self _ _)
      omega
    simp only [render_line]
    intro hmem
    simp only [List.mem_append, List.mem_cons] at hmem
    rcases hmem with h | h | h
    · exact h1 h
    · exact hch h.symm
    · exact h2 h

/-- The row loop of `render_page` never emits a form-feed byte on
printable rows. -/
theorem ff_not_mem_render_rows : ∀ (rows : List (List Cell)) (s : RenderState),
    (∀ row ∈ rows, ∀ c ∈ row, 32 ≤ c.character) → 12 ∉ render_rows rows s := by
  intro rows
  induction rows with
  | nil => intro s _; simp [render_rows]
  | cons row rest ih =>
    intro s hr
    have h1 := ff_not_mem_render_line row s (hr row (List.mem_cons_self _ _))
    have h2 := ff_not_mem_reset (render_line row s).1
    have h3 := ih ((render_line row s).1.reset).1
      (fun r hrr => hr r (List.mem_cons_of_mem _ hrr))
    simp only [render_rows]
    intro hmem
    rcases List.mem_append.mp hmem with hmem2 | h
    · rcases List.mem_append.mp hmem2 with hmem3 | h
      · rcases List.mem_append.mp hmem3 with h | h
        · exact h1 h
        · exact absurd h (by decide)
      · exact h2 h
    · exact h3 h

/-- A well-formed page's rendering contains no form-feed byte. -/
theorem count_ff_render_page (p : Page) (hp : p.Wf) :
    (render_page p).count 12 = 0 := by
  rw [List.count_eq_zero]
  apply ff_not_mem_render_rows
  intro row hrow c hc
  obtain ⟨y, hy, rfl⟩ := List.mem_map.mp hrow
  obtain ⟨x, hx, rfl⟩ := List.mem_map.mp hc
  exact (hp y (List.mem_range.mp hy) x (List.mem_range.mp hx)).1

/-- The page loop emits exactly one form-feed byte per page. -/
theorem count_ff_render_pages : ∀ (ps : List Page), (∀ p ∈ ps, p.Wf) →
    (render_pages ps).count 12 = ps.length := by
  intro ps
  induction ps with
  | nil => intro _; simp [render_pages]
  | cons p rest ih =>
    intro h
    have hp := count_ff_render_page p (h p (List.mem_cons_self _ _))
    have hr := ih (fun q hq => h q (List.mem_cons_of_mem _ hq))
    simp only [render_pages, FF, List.count_append, hp, hr,
      List.length_cons]
    simp [List.count_cons]
    omega

/-- C1: `Document::render` is a total function of the document alone
(rendering is deterministic and cannot fail — the model is a pure `Nat`
function); for any document of well-formed pages the output starts with
`1B 40 0F`, contains exactly one form-feed byte (`0x0C`) per page, and for
an empty document is exactly the three-byte init sequence. -/
theorem C1_render_wire_structure (d : Document) (h : ∀ p ∈ d.pages, p.Wf) :
    d.render.take 3 = [27, 64, 15] ∧
    d.render.count 12 = d.pages.length ∧
    (d.pages = [] → d.render = [27, 64, 15]) := by
  refine ⟨rfl, ?_, ?_⟩
  · show (render_document d).count 12 = d.pages.length
    unfold render_document
    have h1 : ESC_RESET.count 12 = 0 := rfl
    have h2 : SI_CONDENSED.count 12 = 0 := rfl
    rw [List.count_append, List.count_append,
      count_ff_render_pages d.pages h, h1, h2]
    omega
  · intro hnil
    show render_document d = _
    unfold render_document
    rw [hnil]
    rfl

set_option maxRecDepth 100000 in
set_option maxHeartbeats 1000000 in
/-- C1 witness: a one-page document (with one styled write on the page)
yields output starting `1B 40 0F` with exactly one form feed. -/
theorem C1_render_wire_structure_witness :
    (Document.mk [(PageBuilder.new.write_str 0 0 [72, 105]
        StyleFlags.BOLD).build]).render.take 3 = [27, 64, 15] ∧
    (Document.mk [(PageBuilder.new.write_str 0 0 [72, 105]
        StyleFlags.BOLD).build]).render.count 12 =
      (Document.mk [(PageBuilder.new.write_str 0 0 [72, 105]
        StyleFlags.BOLD).build]).pages.length ∧
    ((Document.mk [(PageBuilder.new.write_str 0 0 [72, 105]
        StyleFlags.BOLD).build]).pages = [] →
      (Document.mk [(PageBuilder.new.write_str 0 0 [72, 105]
        StyleFlags.BOLD).build]).render = [27, 64, 15]) :=
  C1_render_wire_structure _ (by decide)

/-! ## C2: style-run optimization

The plan: a `1B 45` (resp. `1B 46`) pair can arise only from a bold-on
(resp. bold-off) emission — characters are printable (32..126, never
`0x1B`) and no control code ends in `0x1B` — so the pair count in a
rendered line equals the number of rising (resp. falling) edges of the
bold flag across the cell sequence, and the end-of-line reset adds one
`1B 46` exactly when the final cell was bold. -/

/-- Pair counting skips a head byte that cannot start the pattern. -/
theorem countPairs_cons_of_ne {a b x : Nat} {l : List Nat} (h : x ≠ a) :
    countPairs a b (x :: l) = countPairs a b l := by
  cases l with
  | nil => simp [countPairs]
  | cons y rest => simp [countPairs, h]

/-- `transition_to` always lands in the target state. -/
theorem transition_to_fst (s : RenderState) (t : StyleFlags) :
    (s.transition_to t).1 = ⟨t.bold, t.underline⟩ := by
  rcases s with ⟨sb, su⟩
  cases htb : t.bold <;> cases htu : t.underline <;> cases sb <;> cases su <;>
    simp [RenderState.transition_to, htb, htu]

/-- One cell's emission (transition codes then a printable character)
contributes a `1B 45` pair exactly when the bold flag rises. -/
theorem countPairs_bold_on_trans (s : RenderState) (t : StyleFlags) (ch : Nat)
    (tail : List Nat) (hch : ch ≠ 27) :
    countPairs 27 69 ((s.transition_to t).2 ++ ch :: tail) =
      (t.bold && !s.bold).toNat + countPairs 27 69 tail := by
  rcases s with ⟨sb, su⟩
  cases htb : t.bold <;> cases htu : t.underline <;> cases sb <;> cases su <;>
    simp [RenderState.transition_to, htb, htu, ESC_BOLD_ON, ESC_BOLD_OFF,
      ESC_UNDERLINE_ON, ESC_UNDERLINE_OFF, countPairs,
      countPairs_cons_of_ne hch]

/-- One cell's emission contributes a `1B 46` pair exactly when the bold
flag falls. -/
theorem countPairs_bold_off_trans (s : RenderState) (t : StyleFlags) (ch : Nat)
    (tail : List Nat) (hch : ch ≠ 27) :
    countPairs 27 70 ((s.transition_to t).2 ++ ch :: tail) =
      (!t.bold && s.bold).toNat + countPairs 27 70 tail := by
  rcases s with ⟨sb, su⟩
  cases htb : t.bold <;> cases htu : t.underline <;> cases sb <;> cases su <;>
    simp [RenderState.transition_to, htb, htu, ESC_BOLD_ON, ESC_BOLD_OFF,
      ESC_UNDERLINE_ON, ESC_UNDERLINE_OFF, countPairs,
      countPairs_cons_of_ne hch]

/-- `1B 45` pairs in a rendered line count the rising edges of the bold
flag. -/
theorem countPairs_line_on : ∀ (cells : List Cell) (s : RenderState)
    (tail : List Nat),
    (∀ c ∈ cells, 32 ≤ c.character ∧ c.character ≤ 126) →
    countPairs 27 69 ((render_line cells s).2 ++ tail) =
      countRises s.bold (cells.map fun c => c.style.bold) +
        countPairs 27 69 tail := by
  intro cells
  induction cells with
  | nil => intro s tail _; simp [render_line, countRises]
  | cons c rest ih =>
    intro s tail hc
    have hch : c.character ≠ 27 := by
      have := hc c (List.mem_cons_self _ _)
      omega
    simp only [render_line, List.map_cons, countRises]
    rw [List.append_assoc, List.cons_append,
      countPairs_bold_on_trans s c.style c.character _ hch,
      ih _ _ fun x hx => hc x (List.mem_cons_of_mem _ hx),
      transition_to_fst]
    dsimp only
    omega

/-- `1B 46` pairs in a rendered line count the falling edges of the bold
flag. -/
theorem countPairs_line_off : ∀ (cells : List Cell) (s : RenderState)
    (tail : List Nat),
    (∀ c ∈ cells, 32 ≤ c.character ∧ c.character ≤ 126) →
    countPairs 27 70 ((render_line cells s).2 ++ tail) =
      countFalls s.bold (cells.map fun c => c.style.bold) +
        countPairs 27 70 tail := by
  intro cells
  induction cells with
  | nil => intro s tail _; simp [render_line, countFalls]
  | cons c rest ih =>
    intro s tail hc
    have hch : c.character ≠ 27 := by
      have := hc c (List.mem_cons_self _ _)
      omega
    simp only [render_line, List.map_cons, countFalls]
    rw [List.append_assoc, List.cons_append,
      countPairs_bold_off_trans s c.style c.character _ hch,
      ih _ _ fun x hx => hc x (List.mem_cons_of_mem _ hx),
      transition_to_fst]
    dsimp only
    omega

/-- The line state machine ends at the last cell's bold flag. -/
theorem render_line_fst_bold : ∀ (cells : List Cell) (s : RenderState),
    (render_line cells s).1.bold =
      finalFlag s.bold (cells.map fun c => c.style.bold) := by
  intro cells
  induction cells with
  | nil => intro s; rfl
  | cons c rest ih =>
    intro s
    simp only [render_line, List.map_cons, finalFlag]
    rw [ih, transition_to_fst]

/-- Reset bytes contain no `1B 45` pair. -/
theorem countPairs_reset_on (s : RenderState) :
    countPairs 27 69 s.reset.2 = 0 := by
  rcases s with ⟨sb, su⟩
  cases sb <;> cases su <;> decide

/-- Reset bytes contain a `1B 46` pair exactly when bold was active. -/
theorem countPairs_reset_off (s : RenderState) :
    countPairs 27 70 s.reset.2 = s.bold.toNat := by
  rcases s with ⟨sb, su⟩
  cases sb <;> cases su <;> decide

/-- Falling edges plus a final active flag equal rising edges plus an
initial active flag. -/
theorem countFalls_add_final : ∀ (l : List Bool) (prev : Bool),
    countFalls prev l + (finalFlag prev l).toNat =
      countRises prev l + prev.toNat := by
  intro l
  induction l with
  | nil => intro prev; simp [countFalls, countRises, finalFlag]
  | cons b rest ih =>
    intro prev
    simp only [countFalls, countRises, finalFlag]
    have := ih b
    cases b <;> cases prev <;> simp_all <;> omega

/-- Per full emitted row (line bytes, `CR LF`, end-of-line reset), both
the `1B 45` count and the `1B 46` count equal the number of rising edges
of the bold flag, i.e. the number of maximal bold runs in the row. -/
theorem row_counts (row : List Cell)
    (hc : ∀ c ∈ row, 32 ≤ c.character ∧ c.character ≤ 126) :
    countPairs 27 69 (render_row_bytes row) =
      countRises false (row.map fun c => c.style.bold) ∧
    countPairs 27 70 (render_row_bytes row) =
      countRises false (row.map fun c => c.style.bold) := by
  have hcr : CR ≠ 27 := by decide
  have hlf : LF ≠ 27 := by decide
  constructor
  · show countPairs 27 69 ((render_line row RenderState.new).2 ++ [CR, LF] ++
        (render_line row RenderState.new).1.reset.2) = _
    rw [List.append_assoc, countPairs_line_on row RenderState.new _ hc]
    have h2 : countPairs 27 69 ([CR, LF] ++
        (render_line row RenderState.new).1.reset.2) = 0 := by
      rw [List.cons_append, List.cons_append, List.nil_append,
        countPairs_cons_of_ne hcr, countPairs_cons_of_ne hlf,
        countPairs_reset_on]
    rw [h2]
    simp [RenderState.new]
  · show countPairs 27 70 ((render_line row RenderState.new).2 ++ [CR, LF] ++
        (render_line row RenderState.new).1.reset.2) = _
    rw [List.append_assoc, countPairs_line_off row RenderState.new _ hc]
    have h2 : countPairs 27 70 ([CR, LF] ++
        (render_line row RenderState.new).1.reset.2) =
        (render_line row RenderState.new).1.bold.toNat := by
      rw [List.cons_append, List.cons_append, List.nil_append,
        countPairs_cons_of_ne hcr, countPairs_cons_of_ne hlf,
        countPairs_reset_off]
    rw [h2, render_line_fst_bold]
    have h3 := countFalls_add_final (row.map fun c => c.style.bold) false
    simp only [Bool.toNat_false, Nat.add_zero] at h3
    show countFalls RenderState.new.bold _ + _ = _
    simp only [RenderState.new]
    exact h3

/-- Edge counting splits over list concatenation. -/
theorem countRises_append : ∀ (l1 l2 : List Bool) (prev : Bool),
    countRises prev (l1 ++ l2) =
      countRises prev l1 + countRises (finalFlag prev l1) l2 := by
  intro l1
  induction l1 with
  | nil => intro l2 prev; simp [countRises, finalFlag]
  | cons b rest ih =>
    intro l2 prev
    simp only [List.cons_append, countRises, finalFlag, List.append_eq]
    rw [ih]
    omega

/-- A list of inactive flags has no rising edge. -/
theorem countRises_all_false : ∀ (l : List Bool) (prev : Bool),
    (∀ b ∈ l, b = false) → countRises prev l = 0 := by
  intro l
  induction l with
  | nil => intro prev _; rfl
  | cons b rest ih =>
    intro prev h
    have hb := h b (List.mem_cons_self _ _)
    subst hb
    simp only [countRises, Bool.false_and, Bool.toNat_false]
    rw [ih _ fun x hx => h x (List.mem_cons_of_mem _ hx)]

/-- A list of active flags seen from an active state has no rising edge. -/
theorem countRises_all_true : ∀ (l : List Bool),
    (∀ b ∈ l, b = true) → countRises true l = 0 := by
  intro l
  induction l with
  | nil => intro _; rfl
  | cons b rest ih =>
    intro h
    have hb := h b (List.mem_cons_self _ _)
    subst hb
    simp only [countRises, Bool.not_true, Bool.and_false, Bool.toNat_false]
    rw [ih fun x hx => h x (List.mem_cons_of_mem _ hx)]

/-- A non-empty all-active run seen from an inactive state has exactly one
rising edge. -/
theorem countRises_one_run (l : List Bool) (h : ∀ b ∈ l, b = true)
    (hne : l ≠ []) : countRises false l = 1 := by
  cases l with
  | nil => exact absurd rfl hne
  | cons b rest =>
    have hb := h b (List.mem_cons_self _ _)
    subst hb
    simp only [countRises, Bool.not_false, Bool.and_true, Bool.toNat_true]
    rw [countRises_all_true rest fun x hx => h x (List.mem_cons_of_mem _ hx)]

/-- The final flag of an all-inactive list starting inactive. -/
theorem finalFlag_all_false : ∀ (l : List Bool),
    (∀ b ∈ l, b = false) → finalFlag false l = false := by
  intro l
  induction l with
  | nil => intro _; rfl
  | cons b rest ih =>
    intro h
    have hb := h b (List.mem_cons_self _ _)
    subst hb
    exact ih fun x hx => h x (List.mem_cons_of_mem _ hx)

/-- The final flag of a non-empty all-active list. -/
theorem finalFlag_all_true : ∀ (l : List Bool) (prev : Bool),
    (∀ b ∈ l, b = true) → l ≠ [] → finalFlag prev l = true := by
  intro l
  induction l with
  | nil => intro prev _ hne; exact absurd rfl hne
  | cons b rest ih =>
    intro prev h _
    have hb := h b (List.mem_cons_self _ _)
    subst hb
    cases rest with
    | nil => rfl
    | cons b' rest' =>
      exact ih true (fun x hx => h x (List.mem_cons_of_mem _ hx))
        (List.cons_ne_nil _ _)

/-- The final flag splits over list concatenation. -/
theorem finalFlag_append : ∀ (l1 l2 : List Bool) (prev : Bool),
    finalFlag prev (l1 ++ l2) = finalFlag (finalFlag prev l1) l2 := by
  intro l1
  induction l1 with
  | nil => intro l2 prev; rfl
  | cons b rest ih =>
    intro l2 prev
    simp only [List.cons_append, finalFlag]
    exact ih l2 b

/-- C2: on codes are emitted exactly at rising style edges and off codes
exactly at falling ones (pair counts in a rendered line equal edge
counts); consequently a row whose bold cells form one run of five
contributes exactly one `1B 45` and one `1B 46`, and a non-bold cell
between two bold runs forces two on/off pairs. -/
theorem C2_style_run_optimization :
    (∀ (row : List Cell) (s : RenderState) (tail : List Nat),
      (∀ c ∈ row, 32 ≤ c.character ∧ c.character ≤ 126) →
      countPairs 27 69 ((render_line row s).2 ++ tail) =
        countRises s.bold (row.map fun c => c.style.bold) +
          countPairs 27 69 tail ∧
      countPairs 27 70 ((render_line row s).2 ++ tail) =
        countFalls s.bold (row.map fun c => c.style.bold) +
          countPairs 27 70 tail) ∧
    (∀ pre mid post : List Cell,
      (∀ c ∈ pre ++ mid ++ post, 32 ≤ c.character ∧ c.character ≤ 126) →
      (∀ c ∈ pre, c.style.bold = false) →
      (∀ c ∈ mid, c.style.bold = true) →
      (∀ c ∈ post, c.style.bold = false) →
      mid.length = 5 →
      countPairs 27 69 (render_row_bytes (pre ++ mid ++ post)) = 1 ∧
      countPairs 27 70 (render_row_bytes (pre ++ mid ++ post)) = 1) ∧
    (∀ (pre m1 m2 post : List Cell) (c : Cell),
      (∀ x ∈ pre ++ m1 ++ [c] ++ m2 ++ post,
        32 ≤ x.character ∧ x.character ≤ 126) →
      (∀ x ∈ pre, x.style.bold = false) →
      (∀ x ∈ m1, x.style.bold = true) →
      c.style.bold = false →
      (∀ x ∈ m2, x.style.bold = true) →
      (∀ x ∈ post, x.style.bold = false) →
      m1 ≠ [] → m2 ≠ [] →
      countPairs 27 69 (render_row_bytes (pre ++ m1 ++ [c] ++ m2 ++ post)) = 2 ∧
      countPairs 27 70 (render_row_bytes (pre ++ m1 ++ [c] ++ m2 ++ post)) = 2) := by
  refine ⟨?_, ?_, ?_⟩
  · intro row s tail hc
    exact ⟨countPairs_line_on row s tail hc, countPairs_line_off row s tail hc⟩
  · intro pre mid post hc hpre hmid hpost hlen
    have hrow := row_counts (pre ++ mid ++ post) hc
    have hA : ∀ b ∈ pre.map (fun c => c.style.bold), b = false := by
      intro b hb
      obtain ⟨x, hx, rfl⟩ := List.mem_map.mp hb
      exact hpre x hx
    have hB : ∀ b ∈ mid.map (fun c => c.style.bold), b = true := by
      intro b hb
      obtain ⟨x, hx, rfl⟩ := List.mem_map.mp hb
      exact hmid x hx
    have hC : ∀ b ∈ post.map (fun c => c.style.bold), b = false := by
      intro b hb
      obtain ⟨x, hx, rfl⟩ := List.mem_map.mp hb
      exact hpost x hx
    have hBne : mid.map (fun c => c.style.bold) ≠ [] := by
      intro hm
      have : mid = [] := List.map_eq_nil_iff.mp hm
      rw [this] at hlen
      simp at hlen
    have hrises : countRises false
        ((pre ++ mid ++ post).map fun c => c.style.bold) = 1 := by
      rw [List.map_append, List.map_append, countRises_append,
        countRises_append, countRises_all_false _ _ hA,
        finalFlag_all_false _ hA, countRises_one_run _ hB hBne,
        finalFlag_append, finalFlag_all_false _ hA,
        finalFlag_all_true _ _ hB hBne, countRises_all_false _ _ hC]
    exact ⟨by rw [hrow.1, hrises], by rw [hrow.2, hrises]⟩
  · intro pre m1 m2 post c hc hpre hm1 hc0 hm2 hpost hne1 hne2
    have hrow := row_counts (pre ++ m1 ++ [c] ++ m2 ++ post) hc
    have hA : ∀ b ∈ pre.map (fun x => x.style.bold), b = false := by
      intro b hb
      obtain ⟨x, hx, rfl⟩ := List.mem_map.mp hb
      exact hpre x hx
    have hB1 : ∀ b ∈ m1.map (fun x => x.style.bold), b = true := by
      intro b hb
      obtain ⟨x, hx, rfl⟩ := List.mem_map.mp hb
      exact hm1 x hx
    have hB2 : ∀ b ∈ m2.map (fun x => x.style.bold), b = true := by
      intro b hb
      obtain ⟨x, hx, rfl⟩ := List.mem_map.mp hb
      exact hm2 x hx
    have hC : ∀ b ∈ post.map (fun x => x.style.bold), b = false := by
      intro b hb
      obtain ⟨x, hx, rfl⟩ := List.mem_map.mp hb
      exact hpost x hx
    have hB1ne : m1.map (fun x => x.style.bold) ≠ [] :=
      fun hm => hne1 (List.map_eq_nil_iff.mp hm)
    have hB2ne : m2.map (fun x => x.style.bold) ≠ [] :=
      fun hm => hne2 (List.map_eq_nil_iff.mp hm)
    have e1 : countRises true [false] = 0 := by decide
    have e2 : finalFlag true [false] = false := by decide
    have f0 : finalFlag false (pre.map fun x => x.style.bold) = false :=
      finalFlag_all_false _ hA
    have fAB1 : finalFlag false ((pre.map fun x => x.style.bold) ++
        (m1.map fun x => x.style.bold)) = true := by
      rw [finalFlag_append, f0, finalFlag_all_true _ _ hB1 hB1ne]
    have fY : finalFlag false (((pre.map fun x => x.style.bold) ++
        (m1.map fun x => x.style.bold)) ++ [false]) = false := by
      rw [finalFlag_append, fAB1]
      exact e2
    have fX : finalFlag false ((((pre.map fun x => x.style.bold) ++
        (m1.map fun x => x.style.bold)) ++ [false]) ++
        (m2.map fun x => x.style.bold)) = true := by
      rw [finalFlag_append, fY, finalFlag_all_true _ _ hB2 hB2ne]
    have r1 : countRises false ((pre.map fun x => x.style.bold) ++
        (m1.map fun x => x.style.bold)) = 1 := by
      rw [countRises_append, countRises_all_false _ _ hA, f0,
        countRises_one_run _ hB1 hB1ne]
    have rY : countRises false (((pre.map fun x => x.style.bold) ++
        (m1.map fun x => x.style.bold)) ++ [false]) = 1 := by
      rw [countRises_append, r1, fAB1, e1]
    have rX : countRises false ((((pre.map fun x => x.style.bold) ++
        (m1.map fun x => x.style.bold)) ++ [false]) ++
        (m2.map fun x => x.style.bold)) = 2 := by
      rw [countRises_append, rY, fY, countRises_one_run _ hB2 hB2ne]
    have hrises : countRises false
        ((pre ++ m1 ++ [c] ++ m2 ++ post).map fun x => x.style.bold) = 2 := by
      rw [List.map_append, List.map_append, List.map_append, List.map_append,
        List.map_singleton, hc0]
      rw [countRises_append, rX, fX, countRises_all_false _ _ hC]
    exact ⟨by rw [hrow.1, hrises], by rw [hrow.2, hrises]⟩

/-- C2 witness: the concrete row `2 plain, 5 bold, 1 plain` emits exactly
one `1B 45` and one `1B 46`. -/
theorem C2_style_run_optimization_witness :
    countPairs 27 69 (render_row_bytes ([Cell.EMPTY, Cell.EMPTY] ++
      List.replicate 5 (Cell.new 66 StyleFlags.BOLD) ++ [Cell.EMPTY])) = 1 ∧
    countPairs 27 70 (render_row_bytes ([Cell.EMPTY, Cell.EMPTY] ++
      List.replicate 5 (Cell.new 66 StyleFlags.BOLD) ++ [Cell.EMPTY])) = 1 :=
  C2_style_run_optimization.2.1 [Cell.EMPTY, Cell.EMPTY]
    (List.replicate 5 (Cell.new 66 StyleFlags.BOLD)) [Cell.EMPTY]
    (by decide) (by decide) (by decide) (by decide) (by decide)

/-! ## C3: cumulative render positions -/

/-- Replaying recorded writes splits over list concatenation. -/
theorem replay_append (l1 l2 : List ((Nat × Nat) × List Nat × StyleFlags)) :
    ∀ ctx, replay ctx (l1 ++ l2) =
      match replay ctx l1 with
      | .error e => .error e
      | .ok c => replay c l2 := by
  induction l1 with
  | nil => intro ctx; rfl
  | cons x rest ih =>
    intro ctx
    obtain ⟨pos, t, st⟩ := x
    simp only [List.cons_append, replay]
    cases ctx.write_styled t pos st with
    | error e => rfl
    | ok c => exact ih c

mutual

/-- A render pass performs exactly the writes recorded by `writeTrace`,
in order (depth-first, insertion order), fail-fast. -/
theorem render_eq_replay : ∀ (w : Widget) (ctx : RenderContext)
    (pos : Nat × Nat), w.render_to ctx pos = replay ctx (w.writeTrace pos)
  | .label _ none _, _, _ => rfl
  | .label _ (some t) st, ctx, pos => by
    simp only [Widget.render_to, Widget.writeTrace, replay]
    cases ctx.write_styled t pos st with
    | error e => rfl
    | ok c => rfl
  | .rect _ _ children, ctx, pos => renderChildren_eq_replay children ctx pos

/-- The child loop of `render_eq_replay`. -/
theorem renderChildren_eq_replay : ∀ (children : List ((Nat × Nat) × Widget))
    (ctx : RenderContext) (pos : Nat × Nat),
    Widget.renderChildren children ctx pos =
      replay ctx (Widget.traceChildren children pos)
  | [], _, _ => rfl
  | (cpos, w) :: rest, ctx, pos => by
    simp only [Widget.renderChildren, Widget.traceChildren]
    rw [replay_append, ← render_eq_replay w ctx
      (u16add pos.1 cpos.1, u16add pos.2 cpos.2)]
    cases w.render_to ctx (u16add pos.1 cpos.1, u16add pos.2 cpos.2) with
    | error e => rfl
    | ok c => exact renderChildren_eq_replay rest c pos

end

/-- Non-zero dimensions under tree well-formedness. -/
theorem wfB_pos : ∀ (w : Widget), w.wfB = true → 1 ≤ w.width ∧ 1 ≤ w.height
  | .label lw t st, h => by
    simp only [Widget.wfB, bne_iff_ne, ne_eq] at h
    exact ⟨by simp only [Widget.width]; omega, le_refl 1⟩
  | .rect pw ph ch, h => by
    simp only [Widget.wfB, Bool.and_eq_true, bne_iff_ne, ne_eq] at h
    refine ⟨?_, ?_⟩ <;> simp only [Widget.width, Widget.height] <;> omega

/-- Unpacking the child loop of `Widget.wfB`. -/
theorem childrenWfB_forall : ∀ (children : List ((Nat × Nat) × Widget))
    (w h : Nat), Widget.childrenWfB w h children = true →
    ∀ c ∈ children,
      c.1.1 + c.2.width ≤ w ∧ c.1.2 + c.2.height ≤ h ∧ c.2.wfB = true := by
  intro children
  induction children with
  | nil => intro w h _ c hc; simp at hc
  | cons x rest ih =>
    intro w h hwf c hc
    obtain ⟨cpos, cw⟩ := x
    simp only [Widget.childrenWfB, Bool.and_eq_true, decide_eq_true_eq] at hwf
    obtain ⟨⟨⟨h1, h2⟩, h3⟩, h4⟩ := hwf
    rcases List.mem_cons.mp hc with rfl | hc'
    · exact ⟨h1, h2, h3⟩
    · exact ih w h h4 c hc'

mutual

/-- Modelled-from-spec refinement: the write trace of a well-formed widget
tree rendered at `base` lists exactly its texted labels, one per leaf path
in depth-first insertion order, each at the *plain component-wise sum* of
`base` and every relative offset along its path. -/
theorem Widget.trace_spec : ∀ (w : Widget) (base : Nat × Nat),
    w.wfB = true → base.1 + w.width ≤ 65536 → base.2 + w.height ≤ 65536 →
    w.writeTrace base = w.leafPaths.filterMap fun p =>
      match w.labelAt p, w.absPos p base with
      | some (t, st), some ab => some (ab, t, st)
      | _, _ => none
  | .label lw none st, base, _, _, _ => rfl
  | .label lw (some t) st, base, _, _, _ => by
    simp [Widget.writeTrace, Widget.leafPaths, Widget.labelAt,
      Widget.subtreeAt, Widget.absPos, List.filterMap]
  | .rect pw ph CH, base, hwf, hx, hy => by
    have hwf' : Widget.childrenWfB pw ph CH = true := by
      simp only [Widget.wfB, Bool.and_eq_true] at hwf
      exact hwf.2
    have hall := childrenWfB_forall CH pw ph hwf'
    have hxw : base.1 + pw ≤ 65536 := by
      simpa only [Widget.width] using hx
    have hyh : base.2 + ph ≤ 65536 := by
      simpa only [Widget.height] using hy
    have hchildren : ∀ c ∈ CH, c.2.wfB = true ∧
        base.1 + c.1.1 + c.2.width ≤ 65536 ∧
        base.2 + c.1.2 + c.2.height ≤ 65536 := by
      intro c hc
      obtain ⟨h1, h2, h3⟩ := hall c hc
      exact ⟨h3, by omega, by omega⟩
    have h := Widget.traceChildren_spec CH base pw ph CH 0 hchildren
      (fun k => by simp)
    simpa only [Widget.writeTrace, Widget.leafPaths] using h

/-- The child loop of `Widget.trace_spec`, generalized over the path-index
offset `i0`; `CH` is the full child list of the enclosing rect, agreeing
with `children` from index `i0` on. -/
theorem Widget.traceChildren_spec :
    ∀ (children : List ((Nat × Nat) × Widget)) (base : Nat × Nat)
    (pw ph : Nat) (CH : List ((Nat × Nat) × Widget)) (i0 : Nat),
    (∀ c ∈ children, c.2.wfB = true ∧ base.1 + c.1.1 + c.2.width ≤ 65536 ∧
      base.2 + c.1.2 + c.2.height ≤ 65536) →
    (∀ k, CH.get? (i0 + k) = children.get? k) →
    Widget.traceChildren children base =
      (Widget.leafPathsChildren children i0).filterMap fun p =>
        match (Widget.rect pw ph CH).labelAt p,
              (Widget.rect pw ph CH).absPos p base with
        | some (t, st), some ab => some (ab, t, st)
        | _, _ => none
  | [], _, _, _, _, _, _, _ => rfl
  | (cpos, c) :: rest, base, pw, ph, CH, i0, hwf, hget => by
    obtain ⟨hcwf, hcx, hcy⟩ := hwf (cpos, c) (List.mem_cons_self _ _)
    dsimp only at hcwf hcx hcy
    obtain ⟨hwpos, hhpos⟩ := wfB_pos c hcwf
    have hux : u16add base.1 cpos.1 = base.1 + cpos.1 := by
      unfold u16add U16MOD
      exact Nat.mod_eq_of_lt (by omega)
    have huy : u16add base.2 cpos.2 = base.2 + cpos.2 := by
      unfold u16add U16MOD
      exact Nat.mod_eq_of_lt (by omega)
    have hchild := Widget.trace_spec c (base.1 + cpos.1, base.2 + cpos.2)
      hcwf (by simpa using hcx) (by simpa using hcy)
    have hrest := Widget.traceChildren_spec rest base pw ph CH (i0 + 1)
      (fun x hx => hwf x (List.mem_cons_of_mem _ hx))
      (fun k => by
        have h1 := hget (k + 1)
        have h2 : i0 + 1 + k = i0 + (k + 1) := by omega
        rw [h2, h1]
        rfl)
    have hget0 : CH[i0]? = some (cpos, c) := by
      have h0 := hget 0
      rw [List.get?_eq_getElem?] at h0
      simpa using h0
    simp only [Widget.traceChildren, Widget.leafPathsChildren,
      List.filterMap_append]
    rw [hux, huy, hchild, hrest, List.filterMap_map]
    congr 1
    apply List.filterMap_congr
    intro q _
    have e1 : (Widget.rect pw ph CH).labelAt (i0 :: q) = c.labelAt q := by
      simp [Widget.labelAt, Widget.subtreeAt, hget0]
    have e2 : (Widget.rect pw ph CH).absPos (i0 :: q) base =
        c.absPos q (base.1 + cpos.1, base.2 + cpos.2) := by
      simp [Widget.absPos, hget0]
    simp only [Function.comp_apply, e1, e2]

end

/-- C3: for a well-formed widget tree rendered via `page.render` (root at
`(0, 0)`), (a) the render pass performs exactly the `writeTrace` writes in
depth-first insertion order, and (b) the trace lists each texted leaf at
the component-wise sum of every ancestor container's relative offset plus
the leaf's own relative position, leaves ordered by their depth-first
(lexicographic) paths. -/
theorem C3_cumulative_positions (w : Widget) (hwf : w.wfB = true)
    (hx : w.width ≤ 65536) (hy : w.height ≤ 65536) :
    (∀ (ctx : RenderContext) (pos : Nat × Nat),
      w.render_to ctx pos = replay ctx (w.writeTrace pos)) ∧
    w.writeTrace (0, 0) = w.leafPaths.filterMap fun p =>
      match w.labelAt p, w.absPos p (0, 0) with
      | some (t, st), some ab => some (ab, t, st)
      | _, _ => none :=
  ⟨fun ctx pos => render_eq_replay w ctx pos,
   Widget.trace_spec w (0, 0) hwf (by simpa using hx) (by simpa using hy)⟩

/-- C3 witness: a label at `(10,8)` inside a container at `(15,5)` inside
a container at `(5,2)` (inside the page root) is written at absolute
`(30, 15)`. -/
theorem C3_cumulative_positions_witness :
    (Widget.rect 160 51 [((5, 2), Widget.rect 45 14 [((15, 5),
      Widget.rect 30 9 [((10, 8),
        Widget.label 20 (some [72, 105]) StyleFlags.NONE)])])]).writeTrace
      (0, 0) = [((30, 15), [72, 105], StyleFlags.NONE)] := by
  rw [(C3_cumulative_positions (Widget.rect 160 51 [((5, 2),
    Widget.rect 45 14 [((15, 5), Widget.rect 30 9 [((10, 8),
      Widget.label 20 (some [72, 105]) StyleFlags.NONE)])])])
    (by decide) (by decide) (by decide)).2]
  rfl

end EscpLayout
